import Mathlib

/-!
A verification development for the DermaDoc frontend core
(`src/frontend/src/lib/api.js`, `src/frontend/src/components/Chatbot.jsx`,
`src/frontend/src/pages/Results.jsx`).

The JavaScript is shallowly embedded: text is modelled as `String` or
`List Char`, JavaScript truthiness of optional string fields as
"present and nonempty", fetch responses and parsed JSON payloads as
explicit record types, and the streaming read loop as a recursion over
the list of delivered payloads.
-/

namespace DermaDoc

/-! ### SSE buffer splitting (api.js, lines 192-194)

The streaming reader keeps a growing text buffer:

  buffer += decoder.decode(value, { stream: true })
  const lines = buffer.split("\n\n")
  buffer = lines.pop() || ""

`splitFrames` fuses the `split`/`pop` pair: it returns the list of complete
delimiter-terminated segments together with the trailing residual segment
(the new buffer).  The delimiter is the two-character sequence `"\n\n"`,
matched leftmost-first and non-overlapping, exactly as
`String.prototype.split` with a string separator does. -/
def splitFrames : List Char → List (List Char) × List Char
  | [] => ([], [])
  | [c] => ([], [c])
  | c :: c' :: rest =>
    if c = '\n' ∧ c' = '\n' then
      ([] :: (splitFrames rest).1, (splitFrames rest).2)
    else
      match (splitFrames (c' :: rest)).1 with
      | [] => ([], c :: (splitFrames (c' :: rest)).2)
      | s :: ss => ((c :: s) :: ss, (splitFrames (c' :: rest)).2)

/-- If no complete delimiter occurs, the residual buffer is the whole input. -/
theorem splitFrames_fst_nil :
    ∀ xs : List Char, (splitFrames xs).1 = [] → (splitFrames xs).2 = xs := by
  intro xs
  induction xs using splitFrames.induct with
  | case1 => simp [splitFrames]
  | case2 c => simp [splitFrames]
  | case3 c c' rest h ih =>
    simp [splitFrames, h]
  | case4 c c' rest h hnil ih =>
    simp only [splitFrames, if_neg h, hnil]
    intro _
    simp [ih hnil]
  | case5 c c' rest h s ss hcons ih =>
    simp only [splitFrames, if_neg h, hcons]
    simp

/-- Splitting a concatenation: the segments of `a ++ b` are the complete
segments of `a` followed by the segments of (residual of `a`) ++ `b`, and the
residuals agree.  This is the heart of chunk-boundary independence. -/
theorem splitFrames_append (a b : List Char) :
    splitFrames (a ++ b) =
      ((splitFrames a).1 ++ (splitFrames ((splitFrames a).2 ++ b)).1,
       (splitFrames ((splitFrames a).2 ++ b)).2) := by
  induction a using splitFrames.induct with
  | case1 => simp [splitFrames]
  | case2 c => simp [splitFrames]
  | case3 c c' rest h ih =>
    obtain ⟨hc, hc'⟩ := h
    subst hc; subst hc'
    have e1 : splitFrames ('\n' :: '\n' :: (rest ++ b)) =
        ([] :: (splitFrames (rest ++ b)).1, (splitFrames (rest ++ b)).2) := by
      simp [splitFrames]
    have e2 : splitFrames ('\n' :: '\n' :: rest) =
        ([] :: (splitFrames rest).1, (splitFrames rest).2) := by
      simp [splitFrames]
    rw [show ('\n' :: '\n' :: rest) ++ b = '\n' :: '\n' :: (rest ++ b) from rfl,
      e1, e2, ih]
    simp
  | case4 c c' rest h hnil ih =>
    have hres : (splitFrames (c' :: rest)).2 = c' :: rest :=
      splitFrames_fst_nil _ hnil
    have hsplit : splitFrames (c :: c' :: rest) = ([], c :: c' :: rest) := by
      simp only [splitFrames, if_neg h, hnil]
      rw [hres]
    rw [show (c :: c' :: rest) ++ b = c :: c' :: (rest ++ b) from rfl, hsplit]
    simp
  | case5 c c' rest h s ss hcons ih =>
    have hsplit : splitFrames (c :: c' :: rest) =
        ((c :: s) :: ss, (splitFrames (c' :: rest)).2) := by
      simp only [splitFrames, if_neg h, hcons]
    rw [show (c :: c' :: rest) ++ b = c :: c' :: (rest ++ b) from rfl, hsplit]
    simp only [splitFrames, if_neg h]
    rw [show c' :: (rest ++ b) = (c' :: rest) ++ b from rfl, ih, hcons]
    simp

/-- State of the incremental reader: the retained residual buffer and the
complete frame segments emitted so far, in order. -/
structure SseState where
  buffer : List Char
  frames : List (List Char)
  deriving Repr, DecidableEq

/-- One `reader.read()` delivery: append the decoded text to the buffer,
split out the complete delimiter-terminated segments, retain the residual. -/
def feedChunk (st : SseState) (d : List Char) : SseState :=
  { buffer := (splitFrames (st.buffer ++ d)).2,
    frames := st.frames ++ (splitFrames (st.buffer ++ d)).1 }

/-- Feed a sequence of read deliveries, one at a time. -/
def feedAll (st : SseState) : List (List Char) → SseState
  | [] => st
  | d :: ds => feedAll (feedChunk st d) ds

theorem feedChunk_append (st : SseState) (a b : List Char) :
    feedChunk (feedChunk st a) b = feedChunk st (a ++ b) := by
  simp only [feedChunk, ← List.append_assoc]
  rw [splitFrames_append (st.buffer ++ a) b]
  simp

theorem feedAll_eq_feedChunk (st : SseState) (d : List Char)
    (ds : List (List Char)) :
    feedAll st (d :: ds) = feedChunk st (d :: ds).flatten := by
  induction ds generalizing st d with
  | nil => simp [feedAll, feedChunk]
  | cons e ds ih =>
    show feedAll (feedChunk st d) (e :: ds) = _
    rw [ih (feedChunk st d) e, feedChunk_append]
    simp [feedAll]

/-! ### The streaming read loop of `chatApi.sendMessage` (api.js, lines 152-253)

The loop is modelled at the payload level: each complete `data:` frame parses
to a JSON object whose relevant fields are `chunk`, `done`, `full_response`
and `error`.  JavaScript truthiness of a string field is "present and
nonempty"; `done` is modelled as a boolean. -/

/-- A chat message as carried in `conversation_history`. -/
structure Msg where
  role : String
  content : String
  deriving Repr, DecidableEq

/-- JavaScript truthiness of an optional string field: present and nonempty. -/
def truthy : Option String → Bool
  | none => false
  | some s => s != ""

/-- `pat` occurs at the start of `text`. -/
def startsWithChars : List Char → List Char → Bool
  | [], _ => true
  | _ :: _, [] => false
  | a :: as, b :: bs => a == b && startsWithChars as bs

/-- `pat` occurs somewhere inside `text`. -/
def containsChars (pat : List Char) : List Char → Bool
  | [] => pat.isEmpty
  | c :: cs => startsWithChars pat (c :: cs) || containsChars pat cs

/-- The substring test `e.message.includes("error")` (api.js, line 226). -/
def includesError (s : String) : Bool :=
  containsChars "error".toList s.toList

/-- A parsed SSE `data:` payload.  Absent fields are `none` / `false`. -/
structure Payload where
  chunk : Option String := none
  done : Bool := false
  full_response : Option String := none
  error : Option String := none
  deriving Repr, DecidableEq

/-- State of the read loop: `fullResponse`, `streamComplete`, and the list of
`onChunk` invocations made so far, each recorded as `(chunk, completed)`. -/
structure LoopState where
  fullResponse : String
  streamComplete : Bool
  events : List (String × Bool)
  deriving Repr, DecidableEq

/-- Result of processing one payload inside the loop body. -/
inductive StepRes where
  | next (st : LoopState)
  | resolvedWith (st : LoopState) (response : String)
  | thrown (st : LoopState) (msg : String)
  deriving Repr, DecidableEq

/-- One iteration of `for (const line of lines)` (api.js, lines 196-231) on an
already-parsed payload: append a truthy `chunk` and invoke the callback; on
`done`, possibly take the authoritative `full_response` and resolve; on a
truthy `error`, invoke the callback with `completed = true` and throw
`new Error(data.error)` — which the surrounding `catch` re-throws only when
the message contains the substring `"error"`, and otherwise logs and
swallows, letting the loop continue. -/
def stepFrame (st : LoopState) (p : Payload) : StepRes :=
  let st1 :=
    if truthy p.chunk then
      { st with fullResponse := st.fullResponse ++ p.chunk.getD "",
                events := st.events ++ [(p.chunk.getD "", false)] }
    else st
  if p.done then
    let final := if truthy p.full_response then p.full_response.getD ""
                 else st1.fullResponse
    .resolvedWith { fullResponse := final, streamComplete := true,
                    events := st1.events ++ [("", true)] } final
  else if truthy p.error then
    let st2 := { st1 with streamComplete := true,
                          events := st1.events ++ [("", true)] }
    if includesError (p.error.getD "") then .thrown st2 (p.error.getD "")
    else .next st2
  else .next st1

/-- Run the loop body over the delivered payloads until it resolves, throws,
or exhausts the stream (`.none` = the reader reported `done`). -/
def runFrames (st : LoopState) :
    List Payload → LoopState × Option (Except String String)
  | [] => (st, none)
  | p :: ps =>
    match stepFrame st p with
    | .next st' => runFrames st' ps
    | .resolvedWith st' r => (st', some (.ok r))
    | .thrown st' m => (st', some (.error m))

/-- The residual-buffer scan of the `done` branch (api.js, lines 164-183):
look for a `done` payload among the frames parsed from the leftover buffer;
the first one found may override `fullResponse` and marks the stream
complete.  Chunks and errors in the residue are ignored here. -/
def checkResidual (st : LoopState) : List Payload → LoopState
  | [] => st
  | p :: ps =>
    if p.done then
      { st with
        fullResponse := if truthy p.full_response then p.full_response.getD ""
                        else st.fullResponse,
        streamComplete := true }
    else checkResidual st ps

/-- How the promise returned by the streaming branch settles. -/
inductive StreamOutcome where
  | resolved (response : String) (history : List Msg)
  | rejected (msg : String)
  | pending
  deriving Repr, DecidableEq

/-- The streaming branch of `chatApi.sendMessage` (api.js, lines 152-253) at
the payload level.  `frames` are the payloads of the complete
delimiter-terminated frames delivered before the reader reports `done`;
`residual` are the payloads parseable from the leftover buffer at that point.
Returns how the promise settles together with the full list of `onChunk`
invocations. -/
def sendMessageStream (message : String) (conversationHistory : List Msg)
    (frames residual : List Payload) : StreamOutcome × List (String × Bool) :=
  match runFrames ⟨"", false, []⟩ frames with
  | (st, some (.ok r)) =>
    (.resolved r (conversationHistory ++
        [⟨"user", message⟩, ⟨"assistant", r⟩]),
     st.events)
  | (st, some (.error m)) => (.rejected m, st.events)
  | (st, none) =>
    -- the `done` branch (lines 162-190): maybe scan the residue, then
    -- `if (!streamComplete) streamComplete = true`, then `break`
    let st1 := if !st.streamComplete then checkResidual st residual else st
    let st2 := if !st1.streamComplete then { st1 with streamComplete := true }
               else st1
    -- after the loop (lines 235-246):
    -- `if (!streamComplete) { onChunk("", true); resolve({...}) }`
    if !st2.streamComplete then
      (.resolved st2.fullResponse (conversationHistory ++
          [⟨"user", message⟩, ⟨"assistant", st2.fullResponse⟩]),
       st2.events ++ [("", true)])
    else (.pending, st2.events)

/-- A frame carrying only an incremental text fragment. -/
def chunkFrame (c : String) : Payload := { chunk := some c }

/-- A completion frame, optionally carrying an authoritative full text. -/
def doneFrame (ov : Option String) : Payload :=
  { done := true, full_response := ov }

/-- A frame whose payload signals a server error. -/
def errFrame (e : String) : Payload := { error := some e }

/-- Left-to-right concatenation of the delivered fragments. -/
def joinChunks : List String → String
  | [] => ""
  | c :: cs => c ++ joinChunks cs

/-- The `onChunk` invocations caused by a list of chunk frames: one
`(fragment, false)` call per truthy (nonempty) fragment. -/
def chunkEvents (cs : List String) : List (String × Bool) :=
  (cs.filter (fun c => c != "")).map (fun c => (c, false))

theorem runFrames_chunks (st : LoopState) (cs : List String)
    (rest : List Payload) :
    runFrames st (cs.map chunkFrame ++ rest) =
      runFrames
        { st with fullResponse := st.fullResponse ++ joinChunks cs,
                  events := st.events ++ chunkEvents cs } rest := by
  induction cs generalizing st with
  | nil => simp [joinChunks, chunkEvents]
  | cons c cs ih =>
    by_cases hc : c = ""
    · subst hc
      simp only [List.map_cons, List.cons_append]
      rw [show runFrames st (chunkFrame "" :: (cs.map chunkFrame ++ rest)) =
          runFrames st (cs.map chunkFrame ++ rest) from by
        simp [runFrames, stepFrame, chunkFrame, truthy]]
      rw [ih st]
      simp [joinChunks, chunkEvents]
    · simp only [List.map_cons, List.cons_append]
      rw [show runFrames st (chunkFrame c :: (cs.map chunkFrame ++ rest)) =
          runFrames { st with fullResponse := st.fullResponse ++ c,
                              events := st.events ++ [(c, false)] }
            (cs.map chunkFrame ++ rest) from by
        simp [runFrames, stepFrame, chunkFrame, truthy, hc]]
      rw [ih]
      simp [joinChunks, chunkEvents, hc, String.append_assoc]

/-- Setting `streamComplete = true` unless it already is leaves it true. -/
theorem forceComplete_streamComplete (st : LoopState) :
    (if !st.streamComplete then { st with streamComplete := true }
     else st).streamComplete = true := by
  by_cases h : st.streamComplete <;> simp [h]

/-- If no delivered payload resolves (`done`) or throws an error whose message
contains `"error"`, the loop exhausts the stream. -/
theorem runFrames_no_terminator (frames : List Payload) :
    ∀ st : LoopState,
      (∀ p ∈ frames, p.done = false ∧
        (truthy p.error = true → includesError (p.error.getD "") = false)) →
      ∃ st', runFrames st frames = (st', none) := by
  induction frames with
  | nil => intro st _; exact ⟨st, rfl⟩
  | cons p ps ih =>
    intro st h
    obtain ⟨hdone, herr⟩ := h p (List.mem_cons_self p ps)
    have hps := fun q hq => h q (List.mem_cons_of_mem p hq)
    cases hsf : stepFrame st p with
    | next stN =>
      obtain ⟨st', hst'⟩ := ih stN hps
      exact ⟨st', by simp [runFrames, hsf, hst']⟩
    | resolvedWith stN r =>
      exfalso
      by_cases he : truthy p.error
      · simp [stepFrame, hdone, he, herr he] at hsf
      · simp [stepFrame, hdone, he] at hsf
    | thrown stN m =>
      exfalso
      by_cases he : truthy p.error
      · simp [stepFrame, hdone, he, herr he] at hsf
      · simp [stepFrame, hdone, he] at hsf

/-- **C1** (code bug).  For every frame sequence whose payloads never signal
completion (and whose error payloads, if any, are swallowed by the
`includes("error")` filter), the streaming `sendMessage` promise neither
resolves nor rejects: it remains pending forever.  The code's own comments
(`// If we exited loop without resolving, resolve with what we have`, and the
warning `"Stream ended without completion signal, using accumulated
response"`) document the intended graceful resolution, but the `done` branch
sets `streamComplete = true` before `break`, so the post-loop
`if (!streamComplete)` resolve is unreachable. -/
theorem C1_stream_end_without_completion_pends_forever (message : String)
    (hist : List Msg) (frames residual : List Payload)
    (h : ∀ p ∈ frames, p.done = false ∧
      (truthy p.error = true → includesError (p.error.getD "") = false)) :
    (sendMessageStream message hist frames residual).1 =
      StreamOutcome.pending := by
  obtain ⟨st', hst'⟩ := runFrames_no_terminator frames ⟨"", false, []⟩ h
  unfold sendMessageStream
  rw [hst']
  simp only [forceComplete_streamComplete, Bool.not_true]
  simp

/-- Witness for C1: a single incremental fragment `"Hi"` and then end of
stream; the promise stays pending instead of resolving with `"Hi"`. -/
theorem C1_witness :
    (∀ p ∈ [chunkFrame "Hi"], p.done = false ∧
      (truthy p.error = true → includesError (p.error.getD "") = false)) ∧
    (sendMessageStream "What is eczema?" [] [chunkFrame "Hi"] []).1 =
      StreamOutcome.pending :=
  ⟨by decide,
   C1_stream_end_without_completion_pends_forever "What is eczema?" []
     [chunkFrame "Hi"] [] (by decide)⟩

/-- **C2** (confirmed).  For every well-formed frame sequence — incremental
fragments followed by a completion frame — the streaming `sendMessage`
resolves with the left-to-right concatenation of the fragments, unless the
completion frame carries a truthy authoritative `full_response`, which then
wins; the resolved history is the input history plus exactly the user message
and the assistant message carrying the final text.  The callback is invoked
once per nonempty fragment with `completed = false` and finally once with
`completed = true`. -/
theorem C2_wellformed_stream_resolves_with_final_text (message : String)
    (hist : List Msg) (cs : List String) (ov : Option String)
    (residual : List Payload) :
    sendMessageStream message hist (cs.map chunkFrame ++ [doneFrame ov])
        residual =
      ((StreamOutcome.resolved
          (if truthy ov then ov.getD "" else joinChunks cs)
          (hist ++ [⟨"user", message⟩,
            ⟨"assistant", if truthy ov then ov.getD "" else joinChunks cs⟩])),
       chunkEvents cs ++ [("", true)]) := by
  unfold sendMessageStream
  rw [runFrames_chunks]
  by_cases hov : truthy ov <;>
    simp [runFrames, stepFrame, doneFrame, truthy, hov]

/-- **C3** (corrected).  A frame whose payload signals an error does invoke
the callback with `completed = true`, but the operation rejects with the
server-supplied message only when that message contains the substring
`"error"` — the surrounding `catch` (api.js, line 226) re-throws only such
errors and silently swallows the rest. -/
theorem C3_error_frame_rejects_when_message_contains_error (message : String)
    (hist : List Msg) (cs : List String) (e : String)
    (residual : List Payload) (he : includesError e = true) :
    sendMessageStream message hist (cs.map chunkFrame ++ [errFrame e])
        residual =
      (StreamOutcome.rejected e, chunkEvents cs ++ [("", true)]) := by
  have hne : e ≠ "" := by
    intro h
    rw [h] at he
    exact absurd he (by decide)
  unfold sendMessageStream
  rw [runFrames_chunks]
  simp [runFrames, stepFrame, errFrame, truthy, hne, he]

/-- Witness for C3 (amended): the server error `"error: model overloaded"`
contains `"error"`, so the promise rejects with exactly that message after a
final `completed = true` callback. -/
theorem C3_witness :
    includesError "error: model overloaded" = true ∧
    sendMessageStream "hi" [] [chunkFrame "Der", errFrame "error: model overloaded"] [] =
      (StreamOutcome.rejected "error: model overloaded",
       [("Der", false), ("", true)]) :=
  ⟨by decide,
   C3_error_frame_rejects_when_message_contains_error "hi" [] ["Der"]
     "error: model overloaded" [] (by decide)⟩

/-- Counterexample for C3 as stated: the server-signaled error message
`"Service unavailable"` does not contain the substring `"error"`, so instead
of rejecting with that message the operation swallows the error (and, the
stream then ending, stays pending). -/
theorem C3_counterexample_error_message_without_keyword :
    (sendMessageStream "hi" [] [errFrame "Service unavailable"] []).1 ≠
      StreamOutcome.rejected "Service unavailable" ∧
    (sendMessageStream "hi" [] [errFrame "Service unavailable"] []).1 =
      StreamOutcome.pending := by
  constructor <;> decide

/-- **C5** (confirmed).  Chunk-boundary independence: for every frame
sequence and every way of splitting its text into read deliveries (including
splits inside a frame), the incremental parser ends with the same emitted
frame segments and the same residual buffer as a single delivery of the whole
text; consequently, feeding the parsed payloads of those segments to the
stream processor yields identical callback invocations and settled outcome. -/
theorem C5_chunk_boundary_independence (ds : List (List Char)) :
    feedAll ⟨[], []⟩ ds = feedChunk ⟨[], []⟩ ds.flatten ∧
    ∀ (parsePayload : List Char → Option Payload) (message : String)
      (hist : List Msg) (residual : List Payload),
      sendMessageStream message hist
          ((feedAll ⟨[], []⟩ ds).frames.filterMap parsePayload) residual =
        sendMessageStream message hist
          ((feedChunk ⟨[], []⟩ ds.flatten).frames.filterMap parsePayload)
          residual := by
  have hmain : feedAll ⟨[], []⟩ ds = feedChunk ⟨[], []⟩ ds.flatten := by
    cases ds with
    | nil => simp [feedAll, feedChunk, splitFrames]
    | cons d ds => exact feedAll_eq_feedChunk _ d ds
  exact ⟨hmain, fun _ _ _ _ => by rw [hmain]⟩

/-! ### HTTP response handling (api.js, lines 28-47, 108-113, 147-150) -/

/-- The persisted browser storage relevant to authentication. -/
structure Storage where
  token : Option String
  user : Option String
  deriving Repr, DecidableEq

/-- The parsed JSON error body; either field may be absent. -/
structure ErrBody where
  detail : Option String := none
  message : Option String := none
  deriving Repr, DecidableEq

/-- An HTTP response: `ok`, numeric status, status text, and the outcome of
`response.json()` on the error body (`none` = the body failed to parse). -/
structure HttpResponse where
  ok : Bool
  status : Nat
  statusText : String
  jsonBody : Option ErrBody
  deriving Repr, DecidableEq

/-- The thrown error message (api.js, lines 41-43):
`const error = await response.json().catch(() => ({ detail: response.statusText }))`
followed by
`error.detail || error.message || "HTTP error! status: " + response.status`,
with `||` selecting the first truthy (nonempty) alternative. -/
def errorMessageOf (r : HttpResponse) : String :=
  let err := r.jsonBody.getD { detail := some r.statusText }
  if truthy err.detail then err.detail.getD ""
  else if truthy err.message then err.message.getD ""
  else "HTTP error! status: " ++ toString r.status

/-- Effects of `apiRequest`'s response handling (api.js, lines 28-47):
the updated storage, the window events dispatched, and the thrown error
message (`none` = success, the parsed body is returned).  On a 401 the
token and user records are removed and `auth:logout` is dispatched. -/
def apiRequestHandle (store : Storage) (r : HttpResponse) :
    Storage × List String × Option String :=
  if r.ok then (store, [], none)
  else if r.status = 401 then
    (⟨none, none⟩, ["auth:logout"], some (errorMessageOf r))
  else (store, [], some (errorMessageOf r))

/-- Effects of `authApi.uploadImage`'s response handling (api.js, lines
108-113): any non-ok response throws; there is no 401-specific branch, no
storage mutation and no event. -/
def uploadImageHandle (store : Storage) (r : HttpResponse) :
    Storage × List String × Option String :=
  if r.ok then (store, [], none)
  else (store, [], some (errorMessageOf r))

/-- Effects of the streaming chat fetch's response handling (api.js, lines
147-150): same shape as the image upload — no 401-specific branch. -/
def chatFetchHandle (store : Storage) (r : HttpResponse) :
    Storage × List String × Option String :=
  if r.ok then (store, [], none)
  else (store, [], some (errorMessageOf r))

/-- Counterexample for C4 as stated: a 401 response on the image upload
leaves the persisted token in place and dispatches no session-invalidation
event at all. -/
theorem C4_counterexample_uploadImage_401_keeps_token :
    (uploadImageHandle ⟨some "tok", some "alice"⟩
        ⟨false, 401, "Unauthorized",
         some ⟨some "Could not validate credentials", none⟩⟩).1.token =
      some "tok" ∧
    (uploadImageHandle ⟨some "tok", some "alice"⟩
        ⟨false, 401, "Unauthorized",
         some ⟨some "Could not validate credentials", none⟩⟩).2.1 = [] := by
  constructor <;> decide

/-- **C4** (corrected).  Only the gateway `apiRequest` reacts to a 401: it
clears the persisted token and user record and dispatches the
`auth:logout` session-invalidation event exactly once; the image upload and
the streaming chat request merely throw the extracted error message, leaving
storage untouched and dispatching nothing. -/
theorem C4_only_apiRequest_clears_on_401 (store : Storage)
    (r : HttpResponse) (hok : r.ok = false) (h401 : r.status = 401) :
    apiRequestHandle store r =
      (⟨none, none⟩, ["auth:logout"], some (errorMessageOf r)) ∧
    (apiRequestHandle store r).2.1.count "auth:logout" = 1 ∧
    uploadImageHandle store r = (store, [], some (errorMessageOf r)) ∧
    chatFetchHandle store r = (store, [], some (errorMessageOf r)) := by
  simp [apiRequestHandle, uploadImageHandle, chatFetchHandle, hok, h401,
    List.count_cons]

/-- Witness for C4 (amended) at a concrete 401 response. -/
theorem C4_witness :
    ((false : Bool) = false ∧ (401 : Nat) = 401) ∧
    apiRequestHandle ⟨some "tok", some "alice"⟩
        ⟨false, 401, "Unauthorized", none⟩ =
      (⟨none, none⟩, ["auth:logout"], some "Unauthorized") :=
  ⟨⟨rfl, rfl⟩,
   by
    have h := C4_only_apiRequest_clears_on_401 ⟨some "tok", some "alice"⟩
      ⟨false, 401, "Unauthorized", none⟩ rfl rfl
    rw [h.1]
    decide⟩

/-- Counterexample for C6 as stated: a body that parses to a JSON object with
neither `detail` nor `message` yields the generic
`"HTTP error! status: 404"`, not the HTTP status text `"Not Found"`. -/
theorem C6_counterexample_empty_parsed_body :
    (apiRequestHandle ⟨none, none⟩ ⟨false, 404, "Not Found", some ⟨none, none⟩⟩).2.2 =
      some "HTTP error! status: 404" ∧
    "HTTP error! status: 404" ≠ "Not Found" := by
  constructor <;> decide

/-- **C6** (corrected).  For every non-success, non-401 response,
`apiRequest` throws a message selected as follows: the body's truthy
`detail` field; otherwise the body's truthy `message` field; otherwise, when
the body was unparsable, the HTTP status text (installed as the fallback
`detail`, itself subject to truthiness); otherwise the generic string
`"HTTP error! status: <code>"`. -/
theorem C6_error_message_selection (store : Storage) (r : HttpResponse)
    (hok : r.ok = false) (h401 : r.status ≠ 401) :
    (apiRequestHandle store r = (store, [], some (errorMessageOf r))) ∧
    (∀ b, r.jsonBody = some b → truthy b.detail = true →
      errorMessageOf r = b.detail.getD "") ∧
    (∀ b, r.jsonBody = some b → truthy b.detail = false →
      truthy b.message = true → errorMessageOf r = b.message.getD "") ∧
    (∀ b, r.jsonBody = some b → truthy b.detail = false →
      truthy b.message = false →
      errorMessageOf r = "HTTP error! status: " ++ toString r.status) ∧
    (r.jsonBody = none → r.statusText ≠ "" →
      errorMessageOf r = r.statusText) ∧
    (r.jsonBody = none → r.statusText = "" →
      errorMessageOf r = "HTTP error! status: " ++ toString r.status) := by
  refine ⟨by simp [apiRequestHandle, hok, h401], ?_, ?_, ?_, ?_, ?_⟩
  · intro b hb hd
    simp [errorMessageOf, hb, hd]
  · intro b hb hd hm
    simp [errorMessageOf, hb, hd, hm]
  · intro b hb hd hm
    simp [errorMessageOf, hb, hd, hm]
  · intro hb hst
    simp [errorMessageOf, hb, truthy, hst]
  · intro hb hst
    simp [errorMessageOf, hb, truthy, hst]

/-- Witness for C6 (amended) at a concrete 404 with a `detail` body. -/
theorem C6_witness :
    ((false : Bool) = false ∧ (404 : Nat) ≠ 401) ∧
    apiRequestHandle ⟨some "tok", none⟩
        ⟨false, 404, "Not Found", some ⟨some "Result not found", none⟩⟩ =
      (⟨some "tok", none⟩, [], some "Result not found") :=
  ⟨⟨rfl, by decide⟩,
   by
    have h := C6_error_message_selection ⟨some "tok", none⟩
      ⟨false, 404, "Not Found", some ⟨some "Result not found", none⟩⟩
      rfl (by decide)
    rw [h.1]
    have hd := h.2.1 ⟨some "Result not found", none⟩ rfl (by decide)
    rw [hd]
    decide⟩

/-! ### Result polling (Results.jsx, lines 294-299) -/

/-- An entry of the fetched result list; only its `status` matters here. -/
structure ResultEntry where
  status : String
  deriving Repr, DecidableEq

/-- The `query.state.data` value seen by `refetchInterval`: absent / falsy,
some non-array JSON value, or an array of result entries. -/
inductive ResultsData where
  | absent
  | notArray
  | arr (entries : List ResultEntry)
  deriving Repr, DecidableEq

/-- The `refetchInterval` callback (Results.jsx, lines 294-299).  Returning
`false` (modelled `none`) stops polling; returning `3000` (modelled
`some 3000`) schedules another fetch after the fixed 3-second delay. -/
def refetchInterval : ResultsData → Option Nat
  | .absent => none
  | .notArray => none
  | .arr entries =>
    if entries.any (fun rv =>
        rv.status == "processing" || rv.status == "pending")
    then some 3000 else none

/-- **C7** (confirmed).  Another refetch (after the fixed 3-second delay) is
scheduled exactly when some entry is `pending` or `processing`; absent,
malformed (non-array) and empty lists schedule no further refetch. -/
theorem C7_refetch_iff_nonterminal_entry (d : ResultsData) :
    (refetchInterval d = some 3000 ↔
      ∃ es, d = ResultsData.arr es ∧
        es.any (fun rv =>
          rv.status == "processing" || rv.status == "pending") = true) ∧
    refetchInterval ResultsData.absent = none ∧
    refetchInterval ResultsData.notArray = none ∧
    refetchInterval (ResultsData.arr []) = none := by
  refine ⟨?_, rfl, rfl, rfl⟩
  cases d with
  | absent => simp [refetchInterval]
  | notArray => simp [refetchInterval]
  | arr es =>
    simp only [refetchInterval]
    by_cases h : es.any (fun rv =>
        rv.status == "processing" || rv.status == "pending") = true
    · rw [if_pos h]
      exact ⟨fun _ => ⟨es, rfl, h⟩, fun _ => rfl⟩
    · rw [if_neg h]
      constructor
      · intro hc
        simp at hc
      · rintro ⟨es', he, ha⟩
        injection he with h'
        subst h'
        exact absurd ha h

/-! ### Chatbot conversation state (Chatbot.jsx) -/

/-- A UI conversation message: optional `id` (set when the message is created
as the streaming placeholder), `role`, and text `content`. -/
structure ChatMsg where
  id : Option String := none
  role : String
  content : String
  deriving Repr, DecidableEq

/-- The canonical greeting (Chatbot.jsx, lines 26-29). -/
def INITIAL_MESSAGE : ChatMsg :=
  { role := "assistant",
    content := "Hello! I'm DermaDoc, your specialized AI assistant for skin health and dermatology. I can help you with questions about skin conditions, skincare routines, dermatological concerns, and skin-related health topics. What would you like to know about your skin health today?" }

/-- What `localStorage.getItem` + `JSON.parse` can yield for the persisted
conversation history. -/
inductive Persisted where
  | absent
  | unparsable (raw : String)
  | parsedArray (msgs : List ChatMsg)
  | parsedOther
  deriving Repr, DecidableEq

/-- The history-loading effect (Chatbot.jsx, lines 43-59), run on mount and
on identity change: given the persisted value and the current `messages`
state (initially `[INITIAL_MESSAGE]`), returns the new `messages` state and
whether the stored entry was removed.  Only a parse failure removes the
entry; only a nonempty parsed array replaces the state. -/
def loadChatHistory (stored : Persisted) (current : List ChatMsg) :
    List ChatMsg × Bool :=
  match stored with
  | .absent => (current, false)
  | .unparsable _ => (current, true)
  | .parsedArray msgs =>
    if msgs.length > 0 then (msgs, false) else (current, false)
  | .parsedOther => (current, false)

/-- **C8** (confirmed).  For every unparsable persisted history value, the
load effect on mount leaves the history at the single canonical greeting and
removes the corrupted entry from storage. -/
theorem C8_corrupt_history_yields_greeting_and_removes_entry (raw : String) :
    loadChatHistory (Persisted.unparsable raw) [INITIAL_MESSAGE] =
      ([INITIAL_MESSAGE], true) := rfl

/-- The visible chatbot conversation state: the `messages` list and the
`streamingMessageId` state variable. -/
structure ChatbotState where
  messages : List ChatMsg
  streamingMessageId : Option String
  deriving Repr, DecidableEq

/-- `setMessages(prev => prev.map(msg => msg.id === messageId ? { ...msg,
content: acc } : msg))` — the update performed by the `onChunk` callback
(Chatbot.jsx, lines 109-124). -/
def updateStreaming (mid : String) (acc : String)
    (msgs : List ChatMsg) : List ChatMsg :=
  msgs.map (fun m => if m.id == some mid then { m with content := acc } else m)

/-- Replay the `onChunk` callback (Chatbot.jsx, lines 103-128) over the
recorded invocations: a `(chunk, false)` call extends the accumulator and
rewrites the streaming placeholder; a `(_, true)` call performs the final
content update and clears `streamingMessageId`. -/
def applyEvents (mid : String) :
    String → ChatbotState → List (String × Bool) → String × ChatbotState
  | acc, s, [] => (acc, s)
  | acc, s, (chunk, false) :: es =>
    applyEvents mid (acc ++ chunk)
      ⟨updateStreaming mid (acc ++ chunk) s.messages, s.streamingMessageId⟩ es
  | acc, s, (_, true) :: es =>
    applyEvents mid acc
      ⟨updateStreaming mid acc s.messages, none⟩ es

/-- The synchronous prefix of `handleSend` (Chatbot.jsx, lines 86-99): append
the user message, set the streaming id, append the placeholder assistant
message carrying the id. -/
def handleSendStart (s : ChatbotState) (userMessage mid : String) :
    ChatbotState :=
  { messages := s.messages ++
      [{ role := "user", content := userMessage },
       { id := some mid, role := "assistant", content := "" }],
    streamingMessageId := some mid }

/-- A send whose streaming promise resolves: the state after the callback
invocations delivered by the stream. -/
def handleSendOk (s : ChatbotState) (userMessage mid : String)
    (events : List (String × Bool)) : ChatbotState :=
  (applyEvents mid "" (handleSendStart s userMessage mid) events).2

/-- A send whose streaming promise rejects (Chatbot.jsx, lines 129-138): the
catch block filters out every message whose id equals the streaming id and
clears `streamingMessageId`. -/
def handleSendErr (s : ChatbotState) (userMessage mid : String)
    (events : List (String × Bool)) : ChatbotState :=
  let s1 := (applyEvents mid "" (handleSendStart s userMessage mid) events).2
  { messages := s1.messages.filter (fun m => !(m.id == some mid)),
    streamingMessageId := none }

/-- The reset action (Chatbot.jsx, lines 166-180). -/
def resetState : ChatbotState := ⟨[INITIAL_MESSAGE], none⟩

/-- Conversation states reachable through the chatbot UI: the initial state,
a completed send, a failed send, and a reset.  A send requires a nonempty
(trimmed) message, an idle input (`streamingMessageId = null`, since the
input is disabled while streaming), and a fresh `Date.now()` id. -/
inductive Reachable : ChatbotState → Prop
  | init : Reachable resetState
  | sendOk (s : ChatbotState) (userMessage mid : String)
      (events : List (String × Bool)) :
      Reachable s → s.streamingMessageId = none →
      (∀ m ∈ s.messages, m.id ≠ some mid) → userMessage ≠ "" →
      Reachable (handleSendOk s userMessage mid events)
  | sendErr (s : ChatbotState) (userMessage mid : String)
      (events : List (String × Bool)) :
      Reachable s → s.streamingMessageId = none →
      (∀ m ∈ s.messages, m.id ≠ some mid) → userMessage ≠ "" →
      Reachable (handleSendErr s userMessage mid events)
  | reset (s : ChatbotState) : Reachable s → Reachable resetState

/-- The callback updates change only message contents: the `(id, role)`
projection of the message list is preserved. -/
theorem applyEvents_proj (mid : String) (events : List (String × Bool)) :
    ∀ (acc : String) (s : ChatbotState),
      ((applyEvents mid acc s events).2).messages.map
          (fun m => (m.id, m.role)) =
        s.messages.map (fun m => (m.id, m.role)) := by
  induction events with
  | nil => intro acc s; rfl
  | cons e es ih =>
    intro acc s
    obtain ⟨chunk, b⟩ := e
    have hmap : ∀ acc' : String,
        (updateStreaming mid acc' s.messages).map (fun m => (m.id, m.role)) =
          s.messages.map (fun m => (m.id, m.role)) := by
      intro acc'
      simp only [updateStreaming, List.map_map]
      refine List.map_congr_left ?_
      intro m _
      by_cases h : m.id = some mid <;> simp [h]
    cases b
    · rw [show applyEvents mid acc s ((chunk, false) :: es) =
          applyEvents mid (acc ++ chunk)
            ⟨updateStreaming mid (acc ++ chunk) s.messages,
             s.streamingMessageId⟩ es from rfl]
      rw [ih]
      exact hmap _
    · rw [show applyEvents mid acc s ((chunk, true) :: es) =
          applyEvents mid acc
            ⟨updateStreaming mid acc s.messages, none⟩ es from rfl]
      rw [ih]
      exact hmap _

/-- Equal `(id, role)` projections give equal counts of any given id. -/
theorem countP_id_of_proj_eq {l₁ l₂ : List ChatMsg}
    (h : l₁.map (fun m => (m.id, m.role)) = l₂.map (fun m => (m.id, m.role)))
    (i : String) :
    l₁.countP (fun m => m.id == some i) =
      l₂.countP (fun m => m.id == some i) := by
  have h2 := congrArg
    (List.countP (fun x : Option String × String => x.1 == some i)) h
  simpa [List.countP_map, Function.comp] using h2

/-- Equal `(id, role)` projections transfer any property of ids and roles. -/
theorem forall_of_proj_eq {l₁ l₂ : List ChatMsg}
    (h : l₁.map (fun m => (m.id, m.role)) = l₂.map (fun m => (m.id, m.role)))
    (Q : Option String × String → Prop)
    (hq : ∀ m ∈ l₁, Q (m.id, m.role)) :
    ∀ m ∈ l₂, Q (m.id, m.role) := by
  intro m hm
  have hmem : (m.id, m.role) ∈ l₂.map (fun m => (m.id, m.role)) :=
    List.mem_map_of_mem _ hm
  rw [← h] at hmem
  obtain ⟨m', hm', he⟩ := List.mem_map.1 hmem
  exact he ▸ hq m' hm'

/-- The id discipline of the conversation: ids occur only on assistant
messages, and each id occurs on at most one message. -/
def IdInvariant (s : ChatbotState) : Prop :=
  (∀ m ∈ s.messages, m.id ≠ none → m.role = "assistant") ∧
  (∀ i : String, s.messages.countP (fun m => m.id == some i) ≤ 1)

theorem idInvariant_handleSendOk (s : ChatbotState)
    (userMessage mid : String) (events : List (String × Bool))
    (hfresh : ∀ m ∈ s.messages, m.id ≠ some mid)
    (hinv : IdInvariant s) :
    IdInvariant (handleSendOk s userMessage mid events) := by
  have hproj : (handleSendOk s userMessage mid events).messages.map
        (fun m => (m.id, m.role)) =
      (handleSendStart s userMessage mid).messages.map
        (fun m => (m.id, m.role)) :=
    applyEvents_proj mid events "" (handleSendStart s userMessage mid)
  have hbase_roles : ∀ m ∈ (handleSendStart s userMessage mid).messages,
      m.id ≠ none → m.role = "assistant" := by
    intro m hm
    rcases List.mem_append.1 hm with hmem | hmem
    · exact hinv.1 m hmem
    · simp only [List.mem_cons, List.not_mem_nil, or_false] at hmem
      rcases hmem with rfl | rfl
      · intro hid; exact absurd rfl hid
      · intro _; rfl
  constructor
  · exact forall_of_proj_eq hproj.symm
      (fun x => x.1 ≠ none → x.2 = "assistant") hbase_roles
  · intro i
    rw [countP_id_of_proj_eq hproj i]
    have hstart : (handleSendStart s userMessage mid).messages =
        s.messages ++
          [{ role := "user", content := userMessage },
           { id := some mid, role := "assistant", content := "" }] := rfl
    rw [hstart, List.countP_append]
    by_cases hi : i = mid
    · subst hi
      have h0 : s.messages.countP (fun m => m.id == some i) = 0 :=
        List.countP_eq_zero.2 (fun m hm => by simp [beq_iff_eq, hfresh m hm])
      rw [h0]
      simp [List.countP_cons]
    · have h0 : List.countP (fun m => m.id == some i)
          [({ role := "user", content := userMessage } : ChatMsg),
           { id := some mid, role := "assistant", content := "" }] = 0 := by
        simp [List.countP_cons, beq_iff_eq, Ne.symm hi]
      rw [h0]
      simpa using hinv.2 i

theorem idInvariant_handleSendErr (s : ChatbotState)
    (userMessage mid : String) (events : List (String × Bool))
    (hfresh : ∀ m ∈ s.messages, m.id ≠ some mid)
    (hinv : IdInvariant s) :
    IdInvariant (handleSendErr s userMessage mid events) := by
  have hok := idInvariant_handleSendOk s userMessage mid events hfresh hinv
  constructor
  · intro m hm
    exact hok.1 m (List.mem_filter.1 hm).1
  · intro i
    calc (handleSendErr s userMessage mid events).messages.countP
          (fun m => m.id == some i)
        ≤ (handleSendOk s userMessage mid events).messages.countP
          (fun m => m.id == some i) := by
          show List.countP _ (List.filter _ _) ≤ _
          rw [List.countP_filter]
          exact List.countP_mono_left (fun m _ h => by
            simp only [Bool.and_eq_true] at h
            exact h.1)
      _ ≤ 1 := hok.2 i

/-- Counterexample for C9 as stated: after a completed streaming exchange
(a reachable state), `streamingMessageId` is cleared, yet the committed
assistant message still carries its id — an id is present on a message that
is no longer in progress. -/
theorem C9_counterexample_committed_message_retains_id :
    Reachable (handleSendOk resetState "hi" "1"
        [("Hello", false), ("", true)]) ∧
    (handleSendOk resetState "hi" "1"
        [("Hello", false), ("", true)]).streamingMessageId = none ∧
    (handleSendOk resetState "hi" "1"
        [("Hello", false), ("", true)]).messages.any
      (fun m => !(m.id == none)) = true := by
  refine ⟨Reachable.sendOk resetState "hi" "1" [("Hello", false), ("", true)]
    Reachable.init rfl (by decide) (by decide), by decide, by decide⟩

/-- **C9** (corrected).  In every reachable conversation state, each
identifier is carried by at most one message — in particular at most one
message carries the in-progress identifier — and every message carrying an
identifier is an assistant message.  (Committed assistant messages may
retain their identifier after streaming completes, since the final callback
update spreads the old message and keeps its `id`.) -/
theorem C9_reachable_id_discipline (s : ChatbotState) (h : Reachable s) :
    (∀ m ∈ s.messages, m.id ≠ none → m.role = "assistant") ∧
    (∀ i : String, s.messages.countP (fun m => m.id == some i) ≤ 1) ∧
    (∀ i : String, s.streamingMessageId = some i →
      s.messages.countP (fun m => m.id == some i) ≤ 1) := by
  have hres : IdInvariant resetState := by
    constructor
    · intro m hm
      simp only [resetState, List.mem_cons, List.not_mem_nil, or_false] at hm
      subst hm
      intro _; rfl
    · intro i
      refine le_trans (List.countP_le_length _) ?_
      simp [resetState]
  have hinv : IdInvariant s := by
    induction h with
    | init => exact hres
    | sendOk s' u mid ev _ _ hfresh _ ih =>
      exact idInvariant_handleSendOk s' u mid ev hfresh ih
    | sendErr s' u mid ev _ _ hfresh _ ih =>
      exact idInvariant_handleSendErr s' u mid ev hfresh ih
    | reset s' _ _ => exact hres
  exact ⟨hinv.1, hinv.2, fun i _ => hinv.2 i⟩

/-- Witness for C9 (amended): the id discipline holds at the concrete state
reached by one completed send. -/
theorem C9_witness :
    (∀ m ∈ (handleSendOk resetState "hi" "1"
        [("Hello", false), ("", true)]).messages,
      m.id ≠ none → m.role = "assistant") ∧
    (∀ i : String,
      (handleSendOk resetState "hi" "1"
          [("Hello", false), ("", true)]).messages.countP
        (fun m => m.id == some i) ≤ 1) :=
  have h := C9_reachable_id_discipline
    (handleSendOk resetState "hi" "1" [("Hello", false), ("", true)])
    (Reachable.sendOk resetState "hi" "1" [("Hello", false), ("", true)]
      Reachable.init rfl (by decide) (by decide))
  ⟨h.1, h.2.1⟩

/-- Messages whose id differs from the streaming id are untouched by the
callback's map. -/
theorem updateStreaming_fresh (mid acc : String) (msgs : List ChatMsg)
    (h : ∀ m ∈ msgs, m.id ≠ some mid) :
    updateStreaming mid acc msgs = msgs := by
  simp only [updateStreaming]
  have : msgs.map (fun m =>
      if m.id == some mid then { m with content := acc } else m) =
      msgs.map id :=
    List.map_congr_left (fun m hm => by simp [beq_iff_eq, h m hm])
  rw [this, List.map_id]

/-- The callback's map rewrites exactly the placeholder when every other
message has a different id. -/
theorem updateStreaming_placeholder (mid acc c : String)
    (msgsA : List ChatMsg) (h : ∀ m ∈ msgsA, m.id ≠ some mid) :
    updateStreaming mid acc
        (msgsA ++ [{ id := some mid, role := "assistant", content := c }]) =
      msgsA ++ [{ id := some mid, role := "assistant", content := acc }] := by
  simp only [updateStreaming, List.map_append]
  rw [show (msgsA.map (fun m =>
      if m.id == some mid then { m with content := acc } else m)) = msgsA from
    updateStreaming_fresh mid acc msgsA h]
  simp

/-- Replaying any callback sequence over "fresh prefix + placeholder" keeps
the shape: the prefix is untouched, only the placeholder's content (and the
streaming id) can change. -/
theorem applyEvents_split (mid : String) (events : List (String × Bool)) :
    ∀ (acc : String) (msgsA : List ChatMsg) (c : String) (sid : Option String),
      (∀ m ∈ msgsA, m.id ≠ some mid) →
      ∃ c' sid',
        (applyEvents mid acc
            ⟨msgsA ++ [{ id := some mid, role := "assistant", content := c }],
             sid⟩ events).2 =
          ⟨msgsA ++ [{ id := some mid, role := "assistant", content := c' }],
           sid'⟩ := by
  induction events with
  | nil => exact fun acc msgsA c sid _ => ⟨c, sid, rfl⟩
  | cons e es ih =>
    intro acc msgsA c sid hA
    obtain ⟨chunk, b⟩ := e
    cases b
    · rw [show applyEvents mid acc
          ⟨msgsA ++ [{ id := some mid, role := "assistant", content := c }],
           sid⟩ ((chunk, false) :: es) =
          applyEvents mid (acc ++ chunk)
            ⟨updateStreaming mid (acc ++ chunk)
              (msgsA ++ [{ id := some mid, role := "assistant", content := c }]),
             sid⟩ es from rfl]
      rw [updateStreaming_placeholder mid (acc ++ chunk) c msgsA hA]
      exact ih (acc ++ chunk) msgsA (acc ++ chunk) sid hA
    · rw [show applyEvents mid acc
          ⟨msgsA ++ [{ id := some mid, role := "assistant", content := c }],
           sid⟩ ((chunk, true) :: es) =
          applyEvents mid acc
            ⟨updateStreaming mid acc
              (msgsA ++ [{ id := some mid, role := "assistant", content := c }]),
             none⟩ es from rfl]
      rw [updateStreaming_placeholder mid acc c msgsA hA]
      exact ih acc msgsA acc none hA

/-- **C10** (confirmed).  When the streaming exchange rejects, the catch
block removes exactly the incomplete assistant placeholder: the resulting
history is the previous history plus the just-appended user message, with
every prior message unchanged, and the streaming id is cleared.  (Requires
the streaming id to be fresh, as `Date.now().toString()` ids are for
distinct sends.) -/
theorem C10_reject_removes_only_incomplete_message (s : ChatbotState)
    (userMessage mid : String) (events : List (String × Bool))
    (hfresh : ∀ m ∈ s.messages, m.id ≠ some mid) :
    handleSendErr s userMessage mid events =
      ⟨s.messages ++ [{ role := "user", content := userMessage }], none⟩ := by
  have hA : ∀ m ∈ s.messages ++
      [({ role := "user", content := userMessage } : ChatMsg)],
      m.id ≠ some mid := by
    intro m hm
    rcases List.mem_append.1 hm with hmem | hmem
    · exact hfresh m hmem
    · simp only [List.mem_cons, List.not_mem_nil, or_false] at hmem
      subst hmem
      simp
  have hstart : handleSendStart s userMessage mid =
      ⟨(s.messages ++ [{ role := "user", content := userMessage }]) ++
        [{ id := some mid, role := "assistant", content := "" }],
       some mid⟩ := by
    simp [handleSendStart]
  obtain ⟨c', sid', hsplit⟩ :=
    applyEvents_split mid events ""
      (s.messages ++ [{ role := "user", content := userMessage }]) ""
      (some mid) hA
  show (⟨((applyEvents mid "" (handleSendStart s userMessage mid)
      events).2).messages.filter (fun m => !(m.id == some mid)), none⟩ :
      ChatbotState) = _
  rw [hstart, hsplit]
  rw [List.filter_append]
  rw [List.filter_eq_self.2 (fun m hm => by simp [beq_iff_eq, hA m hm])]
  simp

/-- Witness for C10: a failed send from the initial state leaves exactly the
greeting and the user message. -/
theorem C10_witness :
    (∀ m ∈ resetState.messages, m.id ≠ some "1") ∧
    handleSendErr resetState "Hi doc" "1" [("Par", false)] =
      ⟨[INITIAL_MESSAGE, { role := "user", content := "Hi doc" }], none⟩ :=
  ⟨by decide, by
    rw [C10_reject_removes_only_incomplete_message resetState "Hi doc" "1"
      [("Par", false)] (by decide)]
    rfl⟩

end DermaDoc
